import Mathlib

/-
Verification development for the storyboard-to-video orchestration engine of
the Peng-vid repository.  The definitions below are a shallow embedding of
src/fal_integration_service/storyboard_pipeline.py and
src/fal_integration_service/scenes.py.  External effects (fal.ai calls, HTTP
downloads, ffmpeg invocations, the filesystem) are made explicit: outcomes of
external calls are oracle inputs, and the filesystem is a list of paths
threaded through the Phase 3 loop.  Python exceptions are modelled with
Except; values that Python stores untyped (raw JSON) are modelled by Val.
-/

namespace PengVid

/-- A JSON-like Python value, as it appears in fal responses and in the
storyboard dict handed to parse_storyboard.  vnull models Python None stored
as a value (dict.get returning "key absent" is modelled by Option instead). -/
inductive Val where
  | vstr : String → Val
  | vint : Int → Val
  | vlist : List Val → Val
  | vdict : List (String × Val) → Val
  | vnull : Val

/-- Python dict lookup d.get(k): first binding of k in the association list,
none when the key is absent.  Keys of a Python dict are unique, so first-match
lookup is faithful. -/
def dget (d : List (String × Val)) (k : String) : Option Val :=
  match d.find? (fun p => p.1 == k) with
  | some p => some p.2
  | none => none

/-- The Python exceptions the embedded code can raise. -/
inductive PyErr where
  | keyError (k : String)
  | typeError (msg : String)
  | imageGenError (msg : String)
  | videoGenError (msg : String)
  | downloadError
  | calledProcessError
  | fileNotFoundError
deriving Repr, DecidableEq

/-
-------------------------------------------------------------------------
scenes.py : Scene dataclass and parse_storyboard
-------------------------------------------------------------------------
-/

/-- The Scene dataclass as constructed by parse_storyboard: a Python
dataclass performs no runtime type check, so every field holds the raw JSON
value taken from the input dict. -/
structure SceneV where
  scene_id : Val
  title : Val
  main_point : Val
  scene_summary : Val
  key_elements : Val
  scene_prompt : Val

/-- The Storyboard dataclass as constructed by parse_storyboard. -/
structure StoryboardV where
  style_preset : Val
  scenes : List SceneV

/-- The scene keys accessed with s[k] in parse_storyboard, i.e. the ones whose
absence raises KeyError (key_elements uses s.get and never raises). -/
def requiredSceneKeys : List String := ["scene_id", "title", "main_point", "scene_summary", "scene_prompt"]

/-- Construction of one Scene from a scene entry (the body of the list
comprehension in parse_storyboard, lines 35-42 of scenes.py).  Required keys
are read with s[k] (KeyError when absent, in the argument order of the source);
key_elements is read with s.get("key_elements", []).  The s.get call sits
between scene_summary and scene_prompt in the source but can never raise, so
performing it last is observationally identical.  Subscripting a non-dict
entry raises TypeError. -/
def parseScene (v : Val) : Except PyErr SceneV :=
  match v with
  | .vdict s =>
    match dget s "scene_id" with
    | none => .error (.keyError "scene_id")
    | some sid =>
      match dget s "title" with
      | none => .error (.keyError "title")
      | some title =>
        match dget s "main_point" with
        | none => .error (.keyError "main_point")
        | some mp =>
          match dget s "scene_summary" with
          | none => .error (.keyError "scene_summary")
          | some ss =>
            match dget s "scene_prompt" with
            | none => .error (.keyError "scene_prompt")
            | some sp =>
              .ok ⟨sid, title, mp, ss, (dget s "key_elements").getD (.vlist []), sp⟩
  | _ => .error (.typeError "scene entry is not a dict")

/-- A Python list comprehension over an Except-producing body: elements are
processed in order and the first exception propagates. -/
def mapExcept {α β : Type} (f : α → Except PyErr β) : List α → Except PyErr (List β)
  | [] => .ok []
  | a :: l =>
    match f a with
    | .error e => .error e
    | .ok b =>
      match mapExcept f l with
      | .error e => .error e
      | .ok bs => .ok (b :: bs)

/-- parse_storyboard (scenes.py lines 25-45), dict-input branch (the str
branch first runs json.loads, which is outside this embedding).
data.get("style_preset", "") defaults a missing style_preset to "";
data["scenes"] raises KeyError when absent.  Iterating a non-list "scenes"
value is approximated by TypeError (in Python a str or dict is iterable but
its elements then fail the s[...] subscripts; the theorems below only concern
list-shaped input). -/
def parse_storyboard (data : List (String × Val)) : Except PyErr StoryboardV :=
  let style_preset := (dget data "style_preset").getD (.vstr "")
  match dget data "scenes" with
  | none => .error (.keyError "scenes")
  | some (.vlist items) =>
    match mapExcept parseScene items with
    | .error e => .error e
    | .ok scenes => .ok ⟨style_preset, scenes⟩
  | some _ => .error (.typeError "scenes value is not a list")

/-
-------------------------------------------------------------------------
storyboard_pipeline.py : pure helpers
-------------------------------------------------------------------------
-/

/-- The typed Scene shape the pipeline relies on (scene.scene_id is used as an
int key into per_scene_durations and in the scene_<id>.mp4 file name). -/
structure Scene where
  scene_id : Int
  title : String
  main_point : String
  scene_summary : String
  key_elements : List String
  scene_prompt : String
deriving Repr, DecidableEq

/-- The typed Storyboard consumed by _process_storyboard_parallel. -/
structure Storyboard where
  style_preset : String
  scenes : List Scene
deriving Repr, DecidableEq

/-- _extract_video_url (lines 39-46): response.get("video"); a dict answers
video.get("url"), a bare string is returned as is, anything else yields None. -/
def _extract_video_url (response : List (String × Val)) : Option Val :=
  match dget response "video" with
  | some (.vdict d) => dget d "url"
  | some (.vstr s) => some (.vstr s)
  | _ => none

/-- Python truthiness of a JSON-like value ("" , 0, [], {} and None are
falsy). -/
def valTruthy : Val → Bool
  | .vstr s => !s.isEmpty
  | .vint n => if n = 0 then false else true
  | .vlist l => !l.isEmpty
  | .vdict d => !d.isEmpty
  | .vnull => false

/-- Truthiness of `video.get(...)`-style results: absent is falsy, present
follows value truthiness. -/
def optValTruthy : Option Val → Bool
  | some v => valTruthy v
  | none => false

/-- _pick_kling_duration (lines 49-58): the 10s bucket once the target reaches
7.5 seconds, else the 5s bucket.  Durations are exact rationals; the result is
the literal string the fal API expects. -/
def _pick_kling_duration (target_seconds : ℚ) : String :=
  if target_seconds ≥ 7.5 then "10" else "5"

/-- _pick_reference_duration (lines 61-64): ceil to whole seconds, clamp to
[1, 8]. -/
def _pick_reference_duration (target_seconds : ℚ) : Int :=
  min 8 (max 1 ⌈target_seconds⌉)

/-- What _adjust_clip_speed (lines 67-111) decides to do once the probe step
has answered.  renameOnly is the fail-open branch (duration unknown or zero:
os.rename input to output and return).  transcode carries the ffmpeg filter
arguments: ptsScale is the coefficient of PTS in setpts, audioTempo is
some factor for -filter:a atempo=factor and none for -an (audio dropped). -/
inductive RetimeAction where
  | renameOnly
  | transcode (ptsScale : ℚ) (audioTempo : Option ℚ)
deriving Repr, DecidableEq

/-- The decision logic of _adjust_clip_speed: duration_actual is the probe
result (none when no Duration line was parsed), target_seconds the requested
duration.  speed_factor = duration_actual / target_seconds; setpts uses
1/speed_factor; atempo is applied exactly when 0.5 <= speed_factor <= 100.0,
otherwise the audio track is dropped. -/
def _adjust_clip_speed_plan (duration_actual : Option ℚ) (target_seconds : ℚ) : RetimeAction :=
  match duration_actual with
  | none => .renameOnly
  | some d =>
    if d = 0 then .renameOnly
    else
      let speed_factor := d / target_seconds
      .transcode (1 / speed_factor)
        (if 1/2 ≤ speed_factor ∧ speed_factor ≤ 100 then some speed_factor else none)

/-
-------------------------------------------------------------------------
storyboard_pipeline.py : Phase 3 (download / retime / concatenate)
-------------------------------------------------------------------------
-/

/-- The file paths Phase 3 touches, named by their role:
tmpFile k is the k-th NamedTemporaryFile scratch download,
adjFile k is its tmp.name + ".adj.mp4" retimed sibling,
sceneFile id is the caller-visible scene_<id>.mp4 promotion target,
outputFile is output_root/output_filename. -/
inductive Path where
  | tmpFile (k : Nat)
  | adjFile (k : Nat)
  | sceneFile (id : Int)
  | outputFile
deriving Repr, DecidableEq

/-- Scratch paths are the run-created temporaries; sceneFile and outputFile
are caller-visible. -/
def Path.isScratch : Path → Bool
  | .tmpFile _ => true
  | .adjFile _ => true
  | _ => false

/-- File creation (NamedTemporaryFile, or ffmpeg writing its output): the
path now exists. -/
def fsAdd (fs : List Path) (p : Path) : List Path :=
  if p ∈ fs then fs else p :: fs

/-- File removal (os.unlink, or the source side of os.rename/os.replace). -/
def fsRemove (fs : List Path) (p : Path) : List Path :=
  fs.filter (fun q => q ≠ p)

/-- One entry of the scene_results list built in Phase 3 (lines 368-372). -/
structure SceneResult where
  scene : Scene
  image_url : String
  video_url : Option Val

/-- The run-scoped mutable state of Phase 3, plus instrumentation:
fs is the set of existing files, counter feeds fresh tmp names,
temp_clips and scene_results are the lists of the source,
clipOrder records (scene_id, clip) in append order,
retimeTargets records the target_seconds of every _adjust_clip_speed call,
loggedNoUrl records the logging.warning pair for scenes without a video URL,
concatManifest records the clip list handed to _concatenate_videos, none as
long as the Concatenation Engine was never invoked. -/
structure P3State where
  fs : List Path
  counter : Nat
  temp_clips : List Path
  scene_results : List SceneResult
  clipOrder : List (Int × Path)
  retimeTargets : List ℚ
  loggedNoUrl : List (Int × List (String × Val))
  concatManifest : Option (List Path)

/-- The state at entry of Phase 3 (lines 361-362): empty lists, no files yet. -/
def P3State.init : P3State :=
  ⟨[], 0, [], [], [], [], [], none⟩

/-- Per-scene target duration resolution (lines 383-387 and 325-329):
per_scene_durations.get(scene_id) when present, else the evenly divided
default (an absent or empty dict behaves identically through find?). -/
def resolveTargetDuration (per_scene_durations : List (Int × ℚ))
    (default_per_scene : Option ℚ) (sid : Int) : Option ℚ :=
  match per_scene_durations.find? (fun p => p.1 == sid) with
  | some p => some p.2
  | none => default_per_scene

/-- Everything external that can vary for one scene once Phase 2 finished:
the scene, its image URL, the raw video response, and the oracle outcomes of
the download, the ffmpeg duration probe and the retiming transcode. -/
structure SceneOutcome where
  scene : Scene
  image_url : String
  response : List (String × Val)
  downloadOk : Bool
  probedDuration : Option ℚ
  transcodeOk : Bool

/-- Lines 382-399 for one scene: the retime-if-target-set block.  k is the
counter value that named the scratch download of this scene as tmpFile k.  When the
target is None or 0.0 (Python falsiness of target_duration) the downloaded
clip is kept as is.  Otherwise _adjust_clip_speed(tmp.name, adjusted, target)
runs — recording the target, and either renaming tmp to adjusted (fail-open
branch) or transcoding into adjusted (CalledProcessError when ffmpeg fails,
modelled as producing no output file) — and the pipeline then calls
os.unlink(tmp.name), which raises FileNotFoundError when tmp no longer
exists.  Returns the state and the final_clip path. -/
def retimeStep (k : Nat) (target : Option ℚ) (probed : Option ℚ) (transcodeOk : Bool)
    (st1 : P3State) : Except (PyErr × P3State) (P3State × Path) :=
  let tmp : Path := .tmpFile k
  match target with
  | none => .ok (st1, tmp)
  | some q =>
    if q = 0 then .ok (st1, tmp)
    else
      let adjusted : Path := .adjFile k
      let st2 : P3State := { st1 with retimeTargets := st1.retimeTargets ++ [q] }
      let afterAdjust : Except (PyErr × P3State) P3State :=
        match _adjust_clip_speed_plan probed q with
        | .renameOnly => .ok { st2 with fs := fsAdd (fsRemove st2.fs tmp) adjusted }
        | .transcode _ _ =>
          if transcodeOk then .ok { st2 with fs := fsAdd st2.fs adjusted }
          else .error (.calledProcessError, st2)
      match afterAdjust with
      | .error e => .error e
      | .ok st3 =>
        if tmp ∈ st3.fs then .ok ({ st3 with fs := fsRemove st3.fs tmp }, adjusted)
        else .error (.fileNotFoundError, st3)

/-- The body of the Phase 3 for-loop (lines 365-417) for one scene.  An error
result carries the raised exception together with the state at the raise
point, so the finally block can be applied to it.  Walkthrough against the
source: extract the video URL; when truthy, create the scratch download file
(NamedTemporaryFile), download into it (raises on HTTP failure), resolve the
target duration, and run the retime step above.  When return_clips is set the
final clip is promoted with os.replace to scene_<id>.mp4.  The clip is then
appended to temp_clips; scenes without a truthy URL are logged with the raw
response.  scene_results gains its entry at the end of the iteration on every
non-raising path. -/
def processScene (return_clips : Bool) (per_scene_durations : List (Int × ℚ))
    (default_per_scene : Option ℚ) (st : P3State) (o : SceneOutcome) :
    Except (PyErr × P3State) P3State :=
  let video_url := _extract_video_url o.response
  let scene_result : SceneResult := ⟨o.scene, o.image_url, video_url⟩
  if optValTruthy video_url then
    let k := st.counter
    let tmp : Path := .tmpFile k
    let st1 : P3State := { st with fs := fsAdd st.fs tmp, counter := k + 1 }
    if o.downloadOk = false then .error (.downloadError, st1)
    else
      let target := resolveTargetDuration per_scene_durations default_per_scene o.scene.scene_id
      match retimeStep k target o.probedDuration o.transcodeOk st1 with
      | .error e => .error e
      | .ok (st4, clip) =>
        let promoted : P3State × Path :=
          if return_clips then
            let named : Path := .sceneFile o.scene.scene_id
            ({ st4 with fs := fsAdd (fsRemove st4.fs clip) named }, named)
          else (st4, clip)
        .ok { promoted.1 with
              temp_clips := promoted.1.temp_clips ++ [promoted.2],
              clipOrder := promoted.1.clipOrder ++ [(o.scene.scene_id, promoted.2)],
              scene_results := promoted.1.scene_results ++ [scene_result] }
  else
    .ok { st with
          loggedNoUrl := st.loggedNoUrl ++ [(o.scene.scene_id, o.response)],
          scene_results := st.scene_results ++ [scene_result] }

/-- The Phase 3 for-loop over video_results: sequential, first exception
propagates with the state at the raise point. -/
def phase3Loop (return_clips : Bool) (per_scene_durations : List (Int × ℚ))
    (default_per_scene : Option ℚ) :
    P3State → List SceneOutcome → Except (PyErr × P3State) P3State
  | st, [] => .ok st
  | st, o :: rest =>
    match processScene return_clips per_scene_durations default_per_scene st o with
    | .error e => .error e
    | .ok st2 => phase3Loop return_clips per_scene_durations default_per_scene st2 rest

/-- The run result dict: scenes, output_path and the optional clip_paths key
of the return_clips early return. -/
structure RunResult where
  scenes : List SceneResult
  output_path : Option Path
  clip_paths : Option (List Path)

/-- Lines 420-444, after the loop: zero clips return output_path None;
return_clips returns the clip list; one clip is promoted with os.rename to the
output path and temp_clips is cleared; otherwise _concatenate_videos joins
temp_clips in list order into the output file (the manifest file it writes is
recorded in concatManifest). -/
def phase3Epilogue (return_clips : Bool) (st : P3State) : RunResult × P3State :=
  match st.temp_clips with
  | [] => (⟨st.scene_results, none, none⟩, st)
  | clip :: rest =>
    if return_clips then (⟨st.scene_results, none, some (clip :: rest)⟩, st)
    else
      match rest with
      | [] =>
        (⟨st.scene_results, some .outputFile, none⟩,
         { st with fs := fsAdd (fsRemove st.fs clip) .outputFile, temp_clips := [] })
      | _ :: _ =>
        (⟨st.scene_results, some .outputFile, none⟩,
         { st with fs := fsAdd st.fs .outputFile, concatManifest := some (clip :: rest) })

/-- The finally block (lines 446-450): unless return_clips, unlink every
still-existing path tracked in temp_clips. -/
def phase3Cleanup (return_clips : Bool) (st : P3State) : P3State :=
  if return_clips then st
  else { st with fs := st.fs.filter (fun p => decide (p ∉ st.temp_clips)) }

/-- Phase 3 end to end: the loop, then on normal completion the epilogue, and
on every exit path the finally block.  The first component is the returned
dict or the propagated exception; the second is the final run state. -/
def phase3 (return_clips : Bool) (per_scene_durations : List (Int × ℚ))
    (default_per_scene : Option ℚ) (outcomes : List SceneOutcome) :
    Except PyErr RunResult × P3State :=
  match phase3Loop return_clips per_scene_durations default_per_scene P3State.init outcomes with
  | .error (e, st) => (.error e, phase3Cleanup return_clips st)
  | .ok st =>
    let res := phase3Epilogue return_clips st
    (.ok res.1, phase3Cleanup return_clips res.2)

/-
-------------------------------------------------------------------------
storyboard_pipeline.py : Phases 1 and 2 and the whole run
-------------------------------------------------------------------------
-/

/-- asyncio.gather without return_exceptions: when every task succeeds the
results come back in task order; when any task raises, the await raises (the
first error in task order stands for the propagated exception; which of
several concurrent exceptions wins is timing-dependent in Python, but that
one wins is not). -/
def gatherExcept {α : Type} : List (Except PyErr α) → Except PyErr (List α)
  | [] => .ok []
  | x :: rest =>
    match x with
    | .error e => .error e
    | .ok a =>
      match gatherExcept rest with
      | .error e => .error e
      | .ok l => .ok (a :: l)

/-- Lines 278-286: default_per_scene = total_duration / num_scenes when
total_duration is truthy and there is at least one scene, else None. -/
def defaultPerScene (total_duration : Option ℚ) (num_scenes : Nat) : Option ℚ :=
  match total_duration with
  | some t => if t ≠ 0 ∧ 0 < num_scenes then some (t / num_scenes) else none
  | none => none

/-- The duration sent to the generation call (lines 331-342): an integer via
_pick_reference_duration for the reference family, a string via
_pick_kling_duration otherwise; a falsy target falls back to the native 5s
default of either family. -/
inductive ReqDuration where
  | str (s : String)
  | int (n : Int)
deriving Repr, DecidableEq

/-- Request duration resolution for one scene, following the truthiness guard
target_duration of the source. -/
def sceneRequestDuration (reference_element : Bool) (target : Option ℚ) : ReqDuration :=
  match target with
  | some q =>
    if q = 0 then (if reference_element then .int 5 else .str "5")
    else if reference_element then .int (_pick_reference_duration q)
    else .str (_pick_kling_duration q)
  | none => if reference_element then .int 5 else .str "5"

/-- The per-scene outcomes of every external call of one run, positionally
aligned with storyboard.scenes: the image generation result (Phase 1), the
raw video generation response (Phase 2), and the Phase 3 oracle bits. -/
structure SceneOracle where
  imageResult : Except PyErr String
  videoResult : Except PyErr (List (String × Val))
  downloadOk : Bool
  probedDuration : Option ℚ
  transcodeOk : Bool

/-- The keyword arguments of _process_storyboard_parallel that the embedded
claims depend on. -/
structure RunConfig where
  total_duration : Option ℚ
  per_scene_durations : List (Int × ℚ)
  return_clips : Bool
  reference_element : Bool

/-- _process_storyboard_parallel end to end.  Phase 1 launches one image task
per scene and gathers them; Phase 2 builds one video task per (scene, image)
pair — the request duration runs through sceneRequestDuration exactly as in
lines 324-355 — and gathers them; Phase 3 then processes the outcomes
sequentially.  When a gather raises, Phase 3 is never entered and no files
are created, hence the none state. -/
def processStoryboardRun (cfg : RunConfig) (storyboard : Storyboard)
    (oracle : List SceneOracle) : Except PyErr RunResult × Option P3State :=
  let scenes := storyboard.scenes
  let dps := defaultPerScene cfg.total_duration scenes.length
  let imageTasks : List (Except PyErr (Scene × String)) :=
    (scenes.zip oracle).map (fun p => p.2.imageResult.map (fun u => (p.1, u)))
  match gatherExcept imageTasks with
  | .error e => (.error e, none)
  | .ok image_results =>
    let videoTasks : List (Except PyErr SceneOutcome) :=
      (image_results.zip oracle).map (fun p =>
        let target := resolveTargetDuration cfg.per_scene_durations dps p.1.1.scene_id
        let _req := sceneRequestDuration cfg.reference_element target
        p.2.videoResult.map (fun resp =>
          ⟨p.1.1, p.1.2, resp, p.2.downloadOk, p.2.probedDuration, p.2.transcodeOk⟩))
    match gatherExcept videoTasks with
    | .error e => (.error e, none)
    | .ok outcomes =>
      let res := phase3 cfg.return_clips cfg.per_scene_durations dps outcomes
      (res.1, some res.2)

/-
-------------------------------------------------------------------------
Concrete inputs used to exercise the embedding
-------------------------------------------------------------------------
-/

/-- A scene with scene_id 2. -/
def sceneA : Scene := ⟨2, "A", "pA", "sA", [], "prompt A"⟩

/-- A scene with scene_id 1. -/
def sceneB : Scene := ⟨1, "B", "pB", "sB", [], "prompt B"⟩

/-- A fal response of the nested-object shape carrying a usable video URL. -/
def respUrl : List (String × Val) := [("video", .vdict [("url", .vstr "http://fal/video.mp4")])]

/-- A fal response without any video URL. -/
def respNoUrl : List (String × Val) := [("status", .vstr "done")]

/-- Scene 2 succeeding end to end, with no duration target in play. -/
def outcomeA : SceneOutcome := ⟨sceneA, "imgA", respUrl, true, none, true⟩

/-- Scene 1 succeeding end to end, with no duration target in play. -/
def outcomeB : SceneOutcome := ⟨sceneB, "imgB", respUrl, true, none, true⟩

/-- A scene whose response carries no usable video URL. -/
def outcomeNoUrl : SceneOutcome := ⟨sceneB, "imgB", respNoUrl, true, none, true⟩

/-- A scene whose retiming transcode exits non-zero (probe answered 5s). -/
def outcomeFailT : SceneOutcome := ⟨sceneB, "imgB", respUrl, true, some 5, false⟩

/-- A scene whose ffmpeg probe could not determine the clip duration. -/
def outcomeMiss : SceneOutcome := ⟨sceneB, "imgB", respUrl, true, none, true⟩

/-- A scene retimed successfully (probe answered 5s, transcode succeeds). -/
def outcomeRetimeOk : SceneOutcome := ⟨sceneB, "imgB", respUrl, true, some 5, true⟩

/-- A two-scene storyboard whose scenes arrive out of scene_id order. -/
def sb2 : Storyboard := ⟨"", [sceneA, sceneB]⟩

/-- An oracle whose image-generation call raises. -/
def oracleFail : SceneOracle := ⟨.error (.imageGenError "boom"), .ok respUrl, true, none, true⟩

/-- An oracle whose calls all succeed. -/
def oracleOkA : SceneOracle := ⟨.ok "imgA", .ok respUrl, true, none, true⟩

/-- A run configuration: no durations, keep-clips disabled, no reference. -/
def cfgW : RunConfig := ⟨none, [], false, false⟩

/-- A complete scene entry dict (no key_elements, which is optional). -/
def sceneDictW : List (String × Val) :=
  [("scene_id", .vint 1), ("title", .vstr "t"), ("main_point", .vstr "m"),
   ("scene_summary", .vstr "s"), ("scene_prompt", .vstr "p")]

/-- A storyboard dict with no style_preset and one complete scene entry. -/
def dataW : List (String × Val) := [("scenes", .vlist [.vdict sceneDictW])]

/-- A storyboard dict whose only scene entry lacks the required title key. -/
def dataBad : List (String × Val) := [("scenes", .vlist [.vdict [("scene_id", .vint 1)]])]

/-- The Scene that parse_storyboard builds from sceneDictW. -/
def scW : SceneV := ⟨.vint 1, .vstr "t", .vstr "m", .vstr "s", .vlist [], .vstr "p"⟩

/-- The Storyboard that parse_storyboard builds from dataW. -/
def sbW : StoryboardV := ⟨.vstr "", [scW]⟩

/-
-------------------------------------------------------------------------
Helper lemmas (shared; not tied to any one claim)
-------------------------------------------------------------------------
-/

theorem mem_fsAdd {fs : List Path} {p x : Path} : x ∈ fsAdd fs p ↔ x ∈ fs ∨ x = p := by
  unfold fsAdd
  split
  · constructor
    · exact Or.inl
    · rintro (hx | rfl)
      · exact hx
      · assumption
  · simp [List.mem_cons, or_comm]

theorem mem_fsRemove {fs : List Path} {p x : Path} : x ∈ fsRemove fs p ↔ x ∈ fs ∧ x ≠ p := by
  simp [fsRemove, List.mem_filter]

theorem retimeStep_ok_book {k : Nat} {target probed : Option ℚ} {tk : Bool}
    {st1 st2 : P3State} {clip : Path}
    (h : retimeStep k target probed tk st1 = .ok (st2, clip)) :
    st2.clipOrder = st1.clipOrder ∧ st2.temp_clips = st1.temp_clips
    ∧ st2.scene_results = st1.scene_results ∧ st2.loggedNoUrl = st1.loggedNoUrl
    ∧ st2.counter = st1.counter ∧ st2.concatManifest = st1.concatManifest
    ∧ (st2.retimeTargets = st1.retimeTargets
        ∨ ∃ q, q ≠ 0 ∧ st2.retimeTargets = st1.retimeTargets ++ [q])
    ∧ (∀ x ∈ st2.fs, (x ∈ st1.fs ∧ x ≠ Path.tmpFile k) ∨ x = clip) := by
  unfold retimeStep at h
  rcases target with _ | q
  · simp only [Except.ok.injEq, Prod.mk.injEq] at h
    obtain ⟨rfl, rfl⟩ := h
    refine ⟨rfl, rfl, rfl, rfl, rfl, rfl, Or.inl rfl, ?_⟩
    intro x hx
    by_cases hxt : x = Path.tmpFile k
    · exact Or.inr hxt
    · exact Or.inl ⟨hx, hxt⟩
  · simp only at h
    split at h
    · simp only [Except.ok.injEq, Prod.mk.injEq] at h
      obtain ⟨rfl, rfl⟩ := h
      refine ⟨rfl, rfl, rfl, rfl, rfl, rfl, Or.inl rfl, ?_⟩
      intro x hx
      by_cases hxt : x = Path.tmpFile k
      · exact Or.inr hxt
      · exact Or.inl ⟨hx, hxt⟩
    · -- q ≠ 0: the outer match on the _adjust_clip_speed result
      split at h
      · -- _adjust_clip_speed raised: no ok result
        simp at h
      · next st3 hAfter =>
        -- hAfter describes which branch of the plan built st3
        split at hAfter
        · -- renameOnly branch: tmp was renamed away, so the subsequent
          -- os.unlink(tmp.name) membership test fails and the result errors
          simp only [Except.ok.injEq] at hAfter
          subst hAfter
          split at h
          · next hmem =>
            rw [mem_fsAdd, mem_fsRemove] at hmem
            simp at hmem
          · simp at h
        · -- transcode branch
          split at hAfter
          · simp only [Except.ok.injEq] at hAfter
            subst hAfter
            split at h
            · simp only [Except.ok.injEq, Prod.mk.injEq] at h
              obtain ⟨rfl, rfl⟩ := h
              refine ⟨rfl, rfl, rfl, rfl, rfl, rfl, Or.inr ⟨q, by assumption, rfl⟩, ?_⟩
              intro x hx
              rw [mem_fsRemove] at hx
              obtain ⟨hx1, hx2⟩ := hx
              rw [mem_fsAdd] at hx1
              rcases hx1 with hx1 | hx1
              · exact Or.inl ⟨hx1, hx2⟩
              · exact Or.inr hx1
            · simp at h
          · simp at hAfter

theorem retimeStep_err_book {k : Nat} {target probed : Option ℚ} {tk : Bool}
    {st1 st2 : P3State} {e : PyErr}
    (h : retimeStep k target probed tk st1 = .error (e, st2)) :
    st2.clipOrder = st1.clipOrder ∧ st2.temp_clips = st1.temp_clips
    ∧ (st2.retimeTargets = st1.retimeTargets
        ∨ ∃ q, q ≠ 0 ∧ st2.retimeTargets = st1.retimeTargets ++ [q]) := by
  unfold retimeStep at h
  rcases target with _ | q
  · exact absurd h (by simp)
  · simp only at h
    split at h
    · simp at h
    · -- q ≠ 0: the outer match on the _adjust_clip_speed result
      split at h
      · next ep hAfter =>
        -- the raise came from inside the retimer: transcode failure
        split at hAfter
        · simp at hAfter
        · split at hAfter
          · simp at hAfter
          · simp only [Except.error.injEq] at hAfter
            subst hAfter
            simp only [Except.error.injEq, Prod.mk.injEq] at h
            obtain ⟨-, rfl⟩ := h
            exact ⟨rfl, rfl, Or.inr ⟨q, by assumption, rfl⟩⟩
      · next st3 hAfter =>
        -- the retimer returned; the raise came from os.unlink(tmp.name)
        split at hAfter
        · simp only [Except.ok.injEq] at hAfter
          subst hAfter
          split at h
          · simp at h
          · simp only [Except.error.injEq, Prod.mk.injEq] at h
            obtain ⟨-, rfl⟩ := h
            exact ⟨rfl, rfl, Or.inr ⟨q, by assumption, rfl⟩⟩
        · split at hAfter
          · simp only [Except.ok.injEq] at hAfter
            subst hAfter
            split at h
            · simp at h
            · simp only [Except.error.injEq, Prod.mk.injEq] at h
              obtain ⟨-, rfl⟩ := h
              exact ⟨rfl, rfl, Or.inr ⟨q, by assumption, rfl⟩⟩
          · simp at hAfter

theorem processScene_noUrl {rc : Bool} {psd : List (Int × ℚ)} {dps : Option ℚ}
    {st : P3State} {o : SceneOutcome}
    (h : optValTruthy (_extract_video_url o.response) = false) :
    processScene rc psd dps st o = .ok { st with
      loggedNoUrl := st.loggedNoUrl ++ [(o.scene.scene_id, o.response)],
      scene_results := st.scene_results
        ++ [⟨o.scene, o.image_url, _extract_video_url o.response⟩] } := by
  simp only [processScene, h, Bool.false_eq_true, if_false]

theorem processScene_ok_clipOrder {rc : Bool} {psd : List (Int × ℚ)} {dps : Option ℚ}
    {st st2 : P3State} {o : SceneOutcome}
    (h : processScene rc psd dps st o = .ok st2) :
    st2.clipOrder.map Prod.fst = st.clipOrder.map Prod.fst
      ++ (if optValTruthy (_extract_video_url o.response) then [o.scene.scene_id] else []) := by
  by_cases hu : optValTruthy (_extract_video_url o.response) = true
  · simp only [processScene, hu, if_true] at h
    split at h
    · simp at h
    · split at h
      · simp at h
      · next st4 clip hr =>
        obtain ⟨hco, -⟩ := retimeStep_ok_book hr
        simp only [Except.ok.injEq] at h
        subst h
        split <;> simp [hco]
  · rw [processScene_noUrl (by simpa using hu)] at h
    simp only [Except.ok.injEq] at h
    subst h
    simp [hu]

theorem processScene_ok_retime {rc : Bool} {psd : List (Int × ℚ)} {dps : Option ℚ}
    {st st2 : P3State} {o : SceneOutcome}
    (h : processScene rc psd dps st o = .ok st2) :
    ∀ q ∈ st2.retimeTargets, q ∈ st.retimeTargets ∨ q ≠ 0 := by
  by_cases hu : optValTruthy (_extract_video_url o.response) = true
  · simp only [processScene, hu, if_true] at h
    split at h
    · simp at h
    · split at h
      · simp at h
      · next st4 clip hr =>
        obtain ⟨-, -, -, -, -, -, hrt, -⟩ := retimeStep_ok_book hr
        simp only [Except.ok.injEq] at h
        subst h
        intro q hq
        have hq4 : q ∈ st4.retimeTargets := by
          split at hq <;> simpa using hq
        rcases hrt with hrt | ⟨q0, hq0, hrt⟩
        · exact Or.inl (hrt ▸ hq4)
        · rw [hrt] at hq4
          rcases List.mem_append.mp hq4 with hq4 | hq4
          · exact Or.inl hq4
          · simp only [List.mem_singleton] at hq4
            exact Or.inr (hq4 ▸ hq0)
  · rw [processScene_noUrl (by simpa using hu)] at h
    simp only [Except.ok.injEq] at h
    subst h
    exact fun q hq => Or.inl hq

theorem processScene_err_retime {rc : Bool} {psd : List (Int × ℚ)} {dps : Option ℚ}
    {st st2 : P3State} {o : SceneOutcome} {e : PyErr}
    (h : processScene rc psd dps st o = .error (e, st2)) :
    ∀ q ∈ st2.retimeTargets, q ∈ st.retimeTargets ∨ q ≠ 0 := by
  by_cases hu : optValTruthy (_extract_video_url o.response) = true
  · simp only [processScene, hu, if_true] at h
    split at h
    · simp only [Except.error.injEq, Prod.mk.injEq] at h
      obtain ⟨-, rfl⟩ := h
      exact fun q hq => Or.inl hq
    · split at h
      · next ep hr =>
        simp only [Except.error.injEq] at h
        subst h
        obtain ⟨-, -, hrt⟩ := retimeStep_err_book hr
        intro q hq
        rcases hrt with hrt | ⟨q0, hq0, hrt⟩
        · exact Or.inl (hrt ▸ hq)
        · rw [hrt] at hq
          rcases List.mem_append.mp hq with hq | hq
          · exact Or.inl hq
          · simp only [List.mem_singleton] at hq
            exact Or.inr (hq ▸ hq0)
      · simp at h
  · rw [processScene_noUrl (by simpa using hu)] at h
    simp at h

theorem processScene_ok_inv {psd : List (Int × ℚ)} {dps : Option ℚ}
    {st st2 : P3State} {o : SceneOutcome}
    (h : processScene false psd dps st o = .ok st2)
    (hinv : ∀ p ∈ st.fs, p.isScratch = true → p ∈ st.temp_clips) :
    ∀ p ∈ st2.fs, p.isScratch = true → p ∈ st2.temp_clips := by
  by_cases hu : optValTruthy (_extract_video_url o.response) = true
  · simp only [processScene, hu, if_true] at h
    split at h
    · simp at h
    · split at h
      · simp at h
      · next st4 clip hr =>
        obtain ⟨-, htc, -, -, -, -, -, hfs⟩ := retimeStep_ok_book hr
        simp only [Except.ok.injEq, Bool.false_eq_true, if_false] at h
        subst h
        intro p hp hs
        simp only at hp ⊢
        rcases hfs p hp with ⟨hp1, hp2⟩ | hp1
        · rw [mem_fsAdd] at hp1
          rcases hp1 with hp1 | hp1
          · have := hinv p hp1 hs
            rw [List.mem_append, htc]
            exact Or.inl this
          · exact absurd hp1 hp2
        · rw [List.mem_append, hp1]
          exact Or.inr (List.mem_singleton.mpr rfl)
  · rw [processScene_noUrl (by simpa using hu)] at h
    simp only [Except.ok.injEq] at h
    subst h
    exact hinv

theorem phase3Loop_clipOrder {rc : Bool} {psd : List (Int × ℚ)} {dps : Option ℚ}
    (os : List SceneOutcome) : ∀ st st2, phase3Loop rc psd dps st os = .ok st2 →
    st2.clipOrder.map Prod.fst = st.clipOrder.map Prod.fst
      ++ (os.filter (fun o => optValTruthy (_extract_video_url o.response))).map
          (fun o => o.scene.scene_id) := by
  induction os with
  | nil =>
    intro st st2 h
    simp only [phase3Loop, Except.ok.injEq] at h
    subst h
    simp
  | cons o rest ih =>
    intro st st2 h
    simp only [phase3Loop] at h
    split at h
    · simp at h
    · next st3 hps =>
      rw [ih st3 st2 h, processScene_ok_clipOrder hps, List.filter_cons]
      by_cases hu : optValTruthy (_extract_video_url o.response) = true <;>
        simp [hu, List.append_assoc]

theorem phase3Loop_retime_ok {rc : Bool} {psd : List (Int × ℚ)} {dps : Option ℚ}
    (os : List SceneOutcome) : ∀ st st2, phase3Loop rc psd dps st os = .ok st2 →
    (∀ q ∈ st.retimeTargets, q ≠ 0) → ∀ q ∈ st2.retimeTargets, q ≠ 0 := by
  induction os with
  | nil =>
    intro st st2 h h0
    simp only [phase3Loop, Except.ok.injEq] at h
    subst h
    exact h0
  | cons o rest ih =>
    intro st st2 h h0
    simp only [phase3Loop] at h
    split at h
    · simp at h
    · next st3 hps =>
      refine ih st3 st2 h (fun q hq => ?_)
      rcases processScene_ok_retime hps q hq with hq2 | hq2
      · exact h0 q hq2
      · exact hq2

theorem phase3Loop_retime_err {rc : Bool} {psd : List (Int × ℚ)} {dps : Option ℚ}
    (os : List SceneOutcome) : ∀ st e st2, phase3Loop rc psd dps st os = .error (e, st2) →
    (∀ q ∈ st.retimeTargets, q ≠ 0) → ∀ q ∈ st2.retimeTargets, q ≠ 0 := by
  induction os with
  | nil =>
    intro st e st2 h
    simp [phase3Loop] at h
  | cons o rest ih =>
    intro st e st2 h h0
    simp only [phase3Loop] at h
    split at h
    · next ep hps =>
      simp only [Except.error.injEq] at h
      subst h
      intro q hq
      rcases processScene_err_retime hps q hq with hq2 | hq2
      · exact h0 q hq2
      · exact hq2
    · next st3 hps =>
      refine ih st3 e st2 h (fun q hq => ?_)
      rcases processScene_ok_retime hps q hq with hq2 | hq2
      · exact h0 q hq2
      · exact hq2

theorem phase3Loop_inv {psd : List (Int × ℚ)} {dps : Option ℚ}
    (os : List SceneOutcome) : ∀ st st2, phase3Loop false psd dps st os = .ok st2 →
    (∀ p ∈ st.fs, p.isScratch = true → p ∈ st.temp_clips) →
    ∀ p ∈ st2.fs, p.isScratch = true → p ∈ st2.temp_clips := by
  induction os with
  | nil =>
    intro st st2 h hinv
    simp only [phase3Loop, Except.ok.injEq] at h
    subst h
    exact hinv
  | cons o rest ih =>
    intro st st2 h hinv
    simp only [phase3Loop] at h
    split at h
    · simp at h
    · next st3 hps =>
      exact ih st3 st2 h (processScene_ok_inv hps hinv)

theorem phase3Loop_noUrl {rc : Bool} {psd : List (Int × ℚ)} {dps : Option ℚ}
    (os : List SceneOutcome)
    (h : ∀ o ∈ os, optValTruthy (_extract_video_url o.response) = false) :
    ∀ st, phase3Loop rc psd dps st os = .ok { st with
      loggedNoUrl := st.loggedNoUrl ++ os.map (fun o => (o.scene.scene_id, o.response)),
      scene_results := st.scene_results
        ++ os.map (fun o => ⟨o.scene, o.image_url, _extract_video_url o.response⟩) } := by
  induction os with
  | nil =>
    intro st
    simp [phase3Loop]
  | cons o rest ih =>
    intro st
    obtain ⟨fs, c, tc, sr, co, rt, ln, cm⟩ := st
    have hps := @processScene_noUrl rc psd dps ⟨fs, c, tc, sr, co, rt, ln, cm⟩ o
      (h o (List.mem_cons_self o rest))
    have hih := ih (fun o2 ho2 => h o2 (List.mem_cons_of_mem o ho2))
    simp only [phase3Loop, hps]
    simp [hih, List.append_assoc]

theorem phase3Epilogue_book (rc : Bool) (st : P3State) :
    ((phase3Epilogue rc st).2.clipOrder = st.clipOrder)
    ∧ ((phase3Epilogue rc st).2.retimeTargets = st.retimeTargets)
    ∧ ((phase3Epilogue rc st).2.loggedNoUrl = st.loggedNoUrl)
    ∧ ((phase3Epilogue rc st).2.scene_results = st.scene_results) := by
  unfold phase3Epilogue
  split
  · exact ⟨rfl, rfl, rfl, rfl⟩
  · split
    · exact ⟨rfl, rfl, rfl, rfl⟩
    · split <;> exact ⟨rfl, rfl, rfl, rfl⟩

theorem phase3Cleanup_book (rc : Bool) (st : P3State) :
    ((phase3Cleanup rc st).clipOrder = st.clipOrder)
    ∧ ((phase3Cleanup rc st).retimeTargets = st.retimeTargets)
    ∧ ((phase3Cleanup rc st).loggedNoUrl = st.loggedNoUrl)
    ∧ ((phase3Cleanup rc st).temp_clips = st.temp_clips)
    ∧ ((phase3Cleanup rc st).concatManifest = st.concatManifest) := by
  unfold phase3Cleanup
  split <;> exact ⟨rfl, rfl, rfl, rfl, rfl⟩

theorem phase3Cleanup_temp (st : P3State) :
    ∀ p ∈ (phase3Cleanup false st).temp_clips, p ∉ (phase3Cleanup false st).fs := by
  intro p hp hc
  simp only [phase3Cleanup, Bool.false_eq_true, if_false] at hp hc
  rw [List.mem_filter] at hc
  exact (of_decide_eq_true hc.2) hp

theorem epilogue_cleanup_scratch (st : P3State)
    (hinv : ∀ p ∈ st.fs, p.isScratch = true → p ∈ st.temp_clips) :
    ∀ p ∈ (phase3Cleanup false (phase3Epilogue false st).2).fs, p.isScratch = false := by
  intro p hp
  simp only [phase3Cleanup, Bool.false_eq_true, if_false] at hp
  rw [List.mem_filter] at hp
  obtain ⟨hp, hnt⟩ := hp
  have hnt := of_decide_eq_true hnt
  unfold phase3Epilogue at hp hnt
  rcases htc : st.temp_clips with _ | ⟨c, rest⟩ <;> rw [htc] at hp hnt
  · -- zero clips: the early return leaves the state unchanged;
    -- the invariant forces the absence of scratch files
    replace hp : p ∈ st.fs := hp
    by_contra hs
    rw [Bool.not_eq_false] at hs
    have := hinv p hp hs
    rw [htc] at this
    simp at this
  · rcases rest with _ | ⟨c2, rest2⟩
    · -- one clip: it was renamed onto the output path and untracked
      replace hp : p ∈ fsAdd (fsRemove st.fs c) Path.outputFile := hp
      rw [mem_fsAdd] at hp
      rcases hp with hp | hp
      · rw [mem_fsRemove] at hp
        by_contra hs
        rw [Bool.not_eq_false] at hs
        have := hinv p hp.1 hs
        rw [htc] at this
        simp only [List.mem_singleton] at this
        exact hp.2 this
      · rw [hp]
        rfl
    · -- two or more clips: concatenation wrote the output file and the
      -- finally block then deleted every tracked clip
      replace hp : p ∈ fsAdd st.fs Path.outputFile := hp
      replace hnt : p ∉ c :: c2 :: rest2 := hnt
      rw [mem_fsAdd] at hp
      rcases hp with hp | hp
      · by_contra hs
        rw [Bool.not_eq_false] at hs
        have := hinv p hp hs
        rw [htc] at this
        exact hnt this
      · rw [hp]
        rfl

/-
-------------------------------------------------------------------------
Duration Policy Resolver (claims C5 and C6)
-------------------------------------------------------------------------
-/

/-- C5: for every target duration t, the bucketed-family resolver
_pick_kling_duration returns the 10-second bucket iff t >= 7.5 and the
5-second bucket otherwise.  The result is a pure function of t (the Lean
definition is a function, so determinism and absence of side effects hold by
construction). -/
theorem kling_bucket_threshold (t : ℚ) :
    (_pick_kling_duration t = "10" ↔ 7.5 ≤ t) ∧ (_pick_kling_duration t = "5" ↔ t < 7.5) := by
  by_cases h : 7.5 ≤ t
  · simp [_pick_kling_duration, ge_iff_le, h, not_lt.mpr h]
  · simp [_pick_kling_duration, ge_iff_le, h, lt_of_not_ge h]

/-- C6: for every target duration t, the continuous-integer-family resolver
_pick_reference_duration returns min(cap, max(1, ceil(t))) with cap = 8, and
the result always lies in [1, 8].  Pure function of t by construction. -/
theorem reference_duration_clamp (t : ℚ) :
    _pick_reference_duration t = min 8 (max 1 ⌈t⌉)
    ∧ 1 ≤ _pick_reference_duration t ∧ _pick_reference_duration t ≤ 8 := by
  refine ⟨rfl, ?_, ?_⟩ <;> unfold _pick_reference_duration <;> omega

/-
-------------------------------------------------------------------------
Clip Retiming Engine (claim C7)
-------------------------------------------------------------------------
-/

/-- C7: when the probed duration d is known and nonzero, the retiming command
scales video presentation timestamps by 1/speed_factor with
speed_factor = d / t, and it carries the audio tempo filter at exactly
speed_factor iff speed_factor lies in [0.5, 100.0]; otherwise the audio track
is dropped (-an). -/
theorem adjust_speed_audio_policy (d t : ℚ) (hd : d ≠ 0) :
    ∃ audio, _adjust_clip_speed_plan (some d) t = .transcode (1 / (d / t)) audio
      ∧ (audio = some (d / t) ↔ (1/2 ≤ d / t ∧ d / t ≤ 100))
      ∧ (audio = none ↔ ¬ (1/2 ≤ d / t ∧ d / t ≤ 100)) := by
  refine ⟨if 1/2 ≤ d / t ∧ d / t ≤ 100 then some (d / t) else none, ?_, ?_, ?_⟩
  · simp only [_adjust_clip_speed_plan, hd, if_false, if_neg hd]
  · split <;> simp_all
  · split <;> simp_all

/-- Witness for C7 at the documented 5s-clip-to-6s-target scenario:
speed_factor = 5/6 lies in [0.5, 100.0], so audio is retimed at 5/6 and the
video PTS scale is 1/(5/6). -/
theorem adjust_speed_audio_policy_witness :
    _adjust_clip_speed_plan (some 5) 6 = .transcode (1 / ((5 : ℚ) / 6)) (some ((5 : ℚ) / 6)) := by
  obtain ⟨audio, h1, h2, _⟩ := adjust_speed_audio_policy 5 6 (by norm_num)
  rw [h2.mpr (by norm_num)] at h1
  exact h1

/-
-------------------------------------------------------------------------
Counterexamples and the C4 failing-input evaluation
-------------------------------------------------------------------------
-/

/-- C1 counterexample: a storyboard whose scenes arrive as [scene_id 2,
scene_id 1], both producing clips.  Phase 3 appends clips in input sequence
order — clipOrder pairs scene ids with clips in the order [(2, _), (1, _)] —
and the concatenation manifest joins them in that same input order, which is
not ascending scene_id order (2 is not <= 1).  No sort by scene_id happens
anywhere. -/
theorem phase3_order_counterexample :
    (phase3 false [] none [outcomeA, outcomeB]).2.clipOrder.map Prod.fst = [2, 1]
    ∧ (phase3 false [] none [outcomeA, outcomeB]).2.concatManifest
        = some [Path.tmpFile 0, Path.tmpFile 1]
    ∧ (phase3 false [] none [outcomeA, outcomeB]).2.clipOrder.map Prod.fst ≠ [1, 2]
    ∧ ¬ (2 : Int) ≤ 1 := by
  refine ⟨rfl, rfl, by decide, by decide⟩

/-- C2 counterexample: the image-generation call of scene 1 raises while all
calls of scene 2 would succeed.  asyncio.gather propagates the exception, so the run
raises instead of completing: no result dict is produced (hence no
scene_results entry records image_url None for any scene). -/
theorem image_failure_counterexample :
    (processStoryboardRun cfgW sb2 [oracleFail, oracleOkA]).1 = .error (.imageGenError "boom")
    ∧ (processStoryboardRun cfgW sb2 [oracleFail, oracleOkA]).2 = none :=
  ⟨rfl, rfl⟩

/-- C3 counterexample: keep-clips disabled, one scene whose retiming
transcode raises mid-scene (CalledProcessError).  The downloaded scratch file
tmpFile 0 was never appended to temp_clips, so the finally block does not
delete it: it is still on disk at run end although it was never promoted. -/
theorem cleanup_leak_counterexample :
    (phase3 false [] (some 6) [outcomeFailT]).1 = .error .calledProcessError
    ∧ Path.tmpFile 0 ∈ (phase3 false [] (some 6) [outcomeFailT]).2.fs
    ∧ (Path.tmpFile 0).isScratch = true
    ∧ (phase3 false [] (some 6) [outcomeFailT]).2.temp_clips = [] := by
  refine ⟨rfl, by decide, rfl, rfl⟩

/-- C4: evaluation at the failing input.  A scene with a 6s target whose
ffmpeg probe cannot determine the clip duration: _adjust_clip_speed itself
fail-opens (renames the clip to the destination unchanged), but the pipeline
then calls os.unlink(tmp.name) on the just-moved path and raises
FileNotFoundError, so the run does not continue — contradicting the
documented fail-open intent. -/
theorem metadata_miss_unlink_bug :
    _adjust_clip_speed_plan none 6 = .renameOnly
    ∧ (phase3 false [] (some 6) [outcomeMiss]).1 = .error .fileNotFoundError :=
  ⟨rfl, rfl⟩

/-
-------------------------------------------------------------------------
Phase 3 ordering (claim C1, amended), cleanup (C3, amended),
soft failure (C8) and the retime guard (C10)
-------------------------------------------------------------------------
-/

theorem phase3_err {rc : Bool} {psd : List (Int × ℚ)} {dps : Option ℚ}
    {os : List SceneOutcome} {e : PyErr} {st : P3State}
    (hl : phase3Loop rc psd dps P3State.init os = .error (e, st)) :
    phase3 rc psd dps os = (.error e, phase3Cleanup rc st) := by
  unfold phase3
  rw [hl]

theorem phase3_ok {rc : Bool} {psd : List (Int × ℚ)} {dps : Option ℚ}
    {os : List SceneOutcome} {st : P3State}
    (hl : phase3Loop rc psd dps P3State.init os = .ok st) :
    phase3 rc psd dps os
      = (.ok (phase3Epilogue rc st).1, phase3Cleanup rc (phase3Epilogue rc st).2) := by
  unfold phase3
  rw [hl]

/-- C1 amended: Phase 3 processes scenes and joins clips in the input
sequence order of the scenes list, not sorted by scene_id — on every run that
completes without an exception, the scene ids paired with the appended clips
are exactly those of the usable scenes in input order, and the concatenation
manifest order equals temp_clips append order. -/
theorem phase3_input_order (rc : Bool) (psd : List (Int × ℚ)) (dps : Option ℚ)
    (os : List SceneOutcome) (h : (phase3 rc psd dps os).1.isOk = true) :
    (phase3 rc psd dps os).2.clipOrder.map Prod.fst
      = (os.filter (fun o => optValTruthy (_extract_video_url o.response))).map
          (fun o => o.scene.scene_id) := by
  rcases hl : phase3Loop rc psd dps P3State.init os with ⟨e, st⟩ | st
  · rw [phase3_err hl] at h
    simp [Except.isOk, Except.toBool] at h
  · rw [phase3_ok hl]
    simp only
    rw [(phase3Cleanup_book rc (phase3Epilogue rc st).2).1,
        (phase3Epilogue_book rc st).1,
        phase3Loop_clipOrder os P3State.init st hl]
    simp [P3State.init]

/-- Witness for the amended C1 at a concrete out-of-order run: scene_id 2
arrives first and its clip is joined first. -/
theorem phase3_input_order_witness :
    (phase3 false [] none [outcomeA, outcomeB]).2.clipOrder.map Prod.fst = [2, 1] := by
  have h := phase3_input_order false [] none [outcomeA, outcomeB] (by decide)
  rw [h]
  decide

/-- C3 amended: with keep-clips disabled, every clip that was appended to the
tracked temp_clips list is deleted on every exit path, and on the exit paths
that raise no exception (normal return and early returns) no scratch file at
all remains on disk; only an exception raised mid-scene can leak the one
in-flight scratch clip that was not yet tracked (see the counterexample). -/
theorem phase3_scratch (psd : List (Int × ℚ)) (dps : Option ℚ)
    (os : List SceneOutcome) :
    ((phase3 false psd dps os).1.isOk = true →
        ∀ p ∈ (phase3 false psd dps os).2.fs, p.isScratch = false)
    ∧ ∀ p ∈ (phase3 false psd dps os).2.temp_clips, p ∉ (phase3 false psd dps os).2.fs := by
  constructor
  · intro hok p hp
    rcases hl : phase3Loop false psd dps P3State.init os with ⟨e, st⟩ | st
    · rw [phase3_err hl] at hok
      simp [Except.isOk, Except.toBool] at hok
    · rw [phase3_ok hl] at hp
      refine epilogue_cleanup_scratch st ?_ p hp
      exact phase3Loop_inv os P3State.init st hl (by simp [P3State.init])
  · intro p hp
    rcases hl : phase3Loop false psd dps P3State.init os with ⟨e, st⟩ | st
    · rw [phase3_err hl] at hp ⊢
      exact phase3Cleanup_temp st p hp
    · rw [phase3_ok hl] at hp ⊢
      exact phase3Cleanup_temp (phase3Epilogue false st).2 p hp

/-- Witness for the amended C3: a successful two-clip run leaves only the
non-scratch output file, and the first tracked clip is gone from disk. -/
theorem phase3_scratch_witness :
    Path.outputFile.isScratch = false
    ∧ Path.tmpFile 0 ∉ (phase3 false [] none [outcomeA, outcomeB]).2.fs :=
  ⟨(phase3_scratch [] none [outcomeA, outcomeB]).1 (by decide) Path.outputFile (by decide),
   (phase3_scratch [] none [outcomeA, outcomeB]).2 (Path.tmpFile 0) (by decide)⟩

/-- C8: when no scene yields a usable video URL, every such scene is logged
with its raw response and excluded from the clip list, the run returns one
scene entry per input scene with output_path None, and the Concatenation
Engine is never invoked (the manifest stays empty). -/
theorem no_usable_url_run (rc : Bool) (psd : List (Int × ℚ)) (dps : Option ℚ)
    (os : List SceneOutcome)
    (h : ∀ o ∈ os, optValTruthy (_extract_video_url o.response) = false) :
    (phase3 rc psd dps os).1
      = .ok ⟨os.map (fun o => ⟨o.scene, o.image_url, _extract_video_url o.response⟩),
             none, none⟩
    ∧ (phase3 rc psd dps os).2.concatManifest = none
    ∧ (phase3 rc psd dps os).2.loggedNoUrl
        = os.map (fun o => (o.scene.scene_id, o.response))
    ∧ (phase3 rc psd dps os).2.temp_clips = [] := by
  have hl := @phase3Loop_noUrl rc psd dps os h P3State.init
  unfold phase3
  rw [hl]
  simp [phase3Epilogue, phase3Cleanup, P3State.init]

/-- Witness for C8 on a one-scene run whose response has no video key. -/
theorem no_usable_url_run_witness :
    (phase3 false [] none [outcomeNoUrl]).2.concatManifest = none
    ∧ (phase3 false [] none [outcomeNoUrl]).2.temp_clips = [] := by
  have h := no_usable_url_run false [] none [outcomeNoUrl] (by decide)
  exact ⟨h.2.1, h.2.2.2⟩

/-- C10: the pipeline guards the retiming step by truthiness of the resolved
target (None and 0.0 both skip it), so every _adjust_clip_speed invocation
recorded during Phase 3 carries a nonzero target_seconds — the speed_factor
division actual/target never divides by zero when called from the pipeline. -/
theorem retime_targets_nonzero (rc : Bool) (psd : List (Int × ℚ)) (dps : Option ℚ)
    (os : List SceneOutcome) :
    ∀ q ∈ (phase3 rc psd dps os).2.retimeTargets, q ≠ 0 := by
  intro q hq
  rcases hl : phase3Loop rc psd dps P3State.init os with ⟨e, st⟩ | st
  · rw [phase3_err hl] at hq
    simp only at hq
    rw [(phase3Cleanup_book rc st).2.1] at hq
    exact phase3Loop_retime_err os P3State.init e st hl (by simp [P3State.init]) q hq
  · rw [phase3_ok hl] at hq
    simp only at hq
    rw [(phase3Cleanup_book rc (phase3Epilogue rc st).2).2.1,
        (phase3Epilogue_book rc st).2.1] at hq
    exact phase3Loop_retime_ok os P3State.init st hl (by simp [P3State.init]) q hq

/-- Witness for C10 on a run that actually retimes: the recorded target 6 is
nonzero by the theorem. -/
theorem retime_targets_nonzero_witness : (6 : ℚ) ≠ 0 :=
  retime_targets_nonzero false [] (some 6) [outcomeRetimeOk] 6 (by decide)

/-
-------------------------------------------------------------------------
Phase 1 failure propagation (claim C2, amended)
-------------------------------------------------------------------------
-/

theorem gatherExcept_err_of_mem {α : Type} {l : List (Except PyErr α)} {e : PyErr}
    (h : Except.error e ∈ l) : ∃ e2, gatherExcept l = .error e2 := by
  induction l with
  | nil => simp at h
  | cons x rest ih =>
    rcases x with e3 | a
    · exact ⟨e3, by simp [gatherExcept]⟩
    · rcases List.mem_cons.mp h with h1 | h1
      · exact absurd h1 (by simp)
      · obtain ⟨e2, h2⟩ := ih h1
        exact ⟨e2, by simp [gatherExcept, h2]⟩

theorem mem_zip_right {α β : Type} : ∀ (l1 : List α) (l2 : List β) (b : β),
    l1.length = l2.length → b ∈ l2 → ∃ a, (a, b) ∈ l1.zip l2 := by
  intro l1
  induction l1 with
  | nil =>
    intro l2 b hlen hb
    cases l2
    · simp at hb
    · simp at hlen
  | cons a l1 ih =>
    intro l2 b hlen hb
    cases l2 with
    | nil => simp at hb
    | cons b2 l2 =>
      rcases List.mem_cons.mp hb with rfl | hb2
      · exact ⟨a, List.mem_cons_self _ _⟩
      · obtain ⟨a2, ha2⟩ := ih l2 b (by simpa using hlen) hb2
        exact ⟨a2, List.mem_cons_of_mem _ ha2⟩

theorem run_err_phase1 {cfg : RunConfig} {sb : Storyboard} {oracle : List SceneOracle}
    {e : PyErr}
    (h : gatherExcept ((sb.scenes.zip oracle).map
          (fun p => p.2.imageResult.map (fun u => (p.1, u)))) = .error e) :
    processStoryboardRun cfg sb oracle = (.error e, none) := by
  simp only [processStoryboardRun]
  rw [h]

/-- C2 amended: when the image-generation call of any scene raises,
asyncio.gather (called without return_exceptions) propagates the exception:
the whole run raises, no Phase 3 state is ever created, and no per-scene
result recording image_url None exists — successes of sibling scenes are
discarded rather than recorded. -/
theorem image_failure_aborts_run (cfg : RunConfig) (sb : Storyboard)
    (oracle : List SceneOracle) (hlen : sb.scenes.length = oracle.length)
    (h : ∃ o ∈ oracle, ∃ e, o.imageResult = .error e) :
    ∃ e2, processStoryboardRun cfg sb oracle = (.error e2, none) := by
  obtain ⟨o, ho, e, he⟩ := h
  obtain ⟨a, ha⟩ := mem_zip_right sb.scenes oracle o hlen ho
  have hmem : Except.error e ∈ (sb.scenes.zip oracle).map
      (fun p => p.2.imageResult.map (fun u => (p.1, u))) := by
    refine List.mem_map.mpr ⟨(a, o), ha, ?_⟩
    simp [he, Except.map]
  obtain ⟨e2, h2⟩ := gatherExcept_err_of_mem hmem
  exact ⟨e2, run_err_phase1 h2⟩

/-- Witness for the amended C2 at the concrete failing run. -/
theorem image_failure_aborts_run_witness :
    (processStoryboardRun cfgW sb2 [oracleFail, oracleOkA]).2 = none := by
  obtain ⟨e2, h2⟩ := image_failure_aborts_run cfgW sb2 [oracleFail, oracleOkA] rfl
    ⟨oracleFail, List.mem_cons_self _ _, ⟨.imageGenError "boom", rfl⟩⟩
  rw [h2]

/-
-------------------------------------------------------------------------
parse_storyboard (claim C9)
-------------------------------------------------------------------------
-/

theorem parseScene_err_shape (s : List (String × Val)) :
    (∃ sc, parseScene (.vdict s) = .ok sc)
    ∨ ∃ k ∈ requiredSceneKeys, parseScene (.vdict s) = .error (.keyError k) := by
  simp only [parseScene]
  rcases h1 : dget s "scene_id" with _ | sid
  · exact Or.inr ⟨"scene_id", by simp [requiredSceneKeys], rfl⟩
  · rcases h2 : dget s "title" with _ | title
    · exact Or.inr ⟨"title", by simp [requiredSceneKeys], rfl⟩
    · rcases h3 : dget s "main_point" with _ | mp
      · exact Or.inr ⟨"main_point", by simp [requiredSceneKeys], rfl⟩
      · rcases h4 : dget s "scene_summary" with _ | ss
        · exact Or.inr ⟨"scene_summary", by simp [requiredSceneKeys], rfl⟩
        · rcases h5 : dget s "scene_prompt" with _ | sp
          · exact Or.inr ⟨"scene_prompt", by simp [requiredSceneKeys], rfl⟩
          · exact Or.inl ⟨_, rfl⟩

theorem parseScene_ok_requires {s : List (String × Val)} {sc : SceneV}
    (h : parseScene (.vdict s) = .ok sc) :
    ∀ k ∈ requiredSceneKeys, ∃ v, dget s k = some v := by
  simp only [parseScene] at h
  rcases h1 : dget s "scene_id" with _ | sid <;> rw [h1] at h
  · simp at h
  · rcases h2 : dget s "title" with _ | title <;> rw [h2] at h
    · simp at h
    · rcases h3 : dget s "main_point" with _ | mp <;> rw [h3] at h
      · simp at h
      · rcases h4 : dget s "scene_summary" with _ | ss <;> rw [h4] at h
        · simp at h
        · rcases h5 : dget s "scene_prompt" with _ | sp <;> rw [h5] at h
          · simp at h
          · intro k hk
            simp only [requiredSceneKeys, List.mem_cons, List.mem_singleton] at hk
            rcases hk with rfl | rfl | rfl | rfl | hk
            · exact ⟨sid, h1⟩
            · exact ⟨title, h2⟩
            · exact ⟨mp, h3⟩
            · exact ⟨ss, h4⟩
            · simp only [List.not_mem_nil, or_false] at hk
              exact hk ▸ ⟨sp, h5⟩

theorem parseScene_err_of_missing {s : List (String × Val)}
    (hmiss : ∃ k ∈ requiredSceneKeys, dget s k = none) :
    ∃ k ∈ requiredSceneKeys, parseScene (.vdict s) = .error (.keyError k) := by
  rcases parseScene_err_shape s with ⟨sc, hok⟩ | herr
  · obtain ⟨k, hk, hnone⟩ := hmiss
    obtain ⟨v, hv⟩ := parseScene_ok_requires hok k hk
    rw [hnone] at hv
    simp at hv
  · exact herr

theorem mapExcept_ok_get {α β : Type} {f : α → Except PyErr β} :
    ∀ {l : List α} {bs : List β}, mapExcept f l = .ok bs →
      bs.length = l.length ∧
      ∀ i (h1 : i < l.length) (h2 : i < bs.length),
        f (l.get ⟨i, h1⟩) = .ok (bs.get ⟨i, h2⟩) := by
  intro l
  induction l with
  | nil =>
    intro bs h
    simp only [mapExcept, Except.ok.injEq] at h
    subst h
    refine ⟨rfl, ?_⟩
    intro i h1
    simp at h1
  | cons a l ih =>
    intro bs h
    simp only [mapExcept] at h
    split at h
    · simp at h
    · next b hfa =>
      split at h
      · simp at h
      · next bs2 hml =>
        simp only [Except.ok.injEq] at h
        subst h
        obtain ⟨hlen, hget⟩ := ih hml
        refine ⟨by simp [hlen], ?_⟩
        intro i h1 h2
        cases i with
        | zero => exact hfa
        | succ i2 =>
          have h1b : i2 < l.length := by
            simpa [List.length_cons, Nat.succ_lt_succ_iff] using h1
          have h2b : i2 < bs2.length := by
            simpa [List.length_cons, Nat.succ_lt_succ_iff] using h2
          exact hget i2 h1b h2b

theorem mapExcept_parseScene_err {items : List Val}
    (hd : ∀ v ∈ items, ∃ d, v = .vdict d)
    (hbad : ∃ v ∈ items, ∃ d, v = .vdict d ∧ ∃ k ∈ requiredSceneKeys, dget d k = none) :
    ∃ k ∈ requiredSceneKeys, mapExcept parseScene items = .error (.keyError k) := by
  induction items with
  | nil =>
    obtain ⟨v, hv, -⟩ := hbad
    simp at hv
  | cons v rest ih =>
    obtain ⟨d, rfl⟩ := hd v (List.mem_cons_self v rest)
    rcases parseScene_err_shape d with ⟨sc, hok⟩ | ⟨k, hk, herr⟩
    · obtain ⟨v0, hv0, d0, hv0d, k0, hk0, hnone⟩ := hbad
      rcases List.mem_cons.mp hv0 with rfl | hv0r
      · injection hv0d with hdd
        subst hdd
        obtain ⟨w, hw⟩ := parseScene_ok_requires hok k0 hk0
        rw [hnone] at hw
        simp at hw
      · obtain ⟨k2, hk2, hml⟩ :=
          ih (fun v2 hv2 => hd v2 (List.mem_cons_of_mem _ hv2))
            ⟨v0, hv0r, d0, hv0d, k0, hk0, hnone⟩
        exact ⟨k2, hk2, by simp [mapExcept, hok, hml]⟩
    · exact ⟨k, hk, by simp [mapExcept, herr]⟩

/-- C9: parse_storyboard defaults a missing style_preset to the empty string
and a missing per-scene key_elements to the empty list, builds the scenes
list in input order (entry i parses to scene i), and raises KeyError whenever
a scene entry lacks one of the required keys scene_id, title, main_point,
scene_summary or scene_prompt. -/
theorem parse_storyboard_contract :
    (∀ data sb, parse_storyboard data = .ok sb →
        dget data "style_preset" = none → sb.style_preset = .vstr "")
    ∧ (∀ s sc, parseScene (.vdict s) = .ok sc →
        dget s "key_elements" = none → sc.key_elements = .vlist [])
    ∧ (∀ data items sb, dget data "scenes" = some (.vlist items) →
        parse_storyboard data = .ok sb →
        sb.scenes.length = items.length ∧
        ∀ i (h1 : i < items.length) (h2 : i < sb.scenes.length),
          parseScene (items.get ⟨i, h1⟩) = .ok (sb.scenes.get ⟨i, h2⟩))
    ∧ (∀ data items, dget data "scenes" = some (.vlist items) →
        (∀ v ∈ items, ∃ d, v = .vdict d) →
        (∃ v ∈ items, ∃ d, v = .vdict d ∧ ∃ k ∈ requiredSceneKeys, dget d k = none) →
        ∃ k ∈ requiredSceneKeys, parse_storyboard data = .error (.keyError k)) := by
  refine ⟨?_, ?_, ?_, ?_⟩
  · intro data sb h hps
    simp only [parse_storyboard] at h
    split at h
    · simp at h
    · split at h
      · simp at h
      · simp only [Except.ok.injEq] at h
        subst h
        simp [hps]
    · simp at h
  · intro s sc h hke
    simp only [parseScene] at h
    rcases h1 : dget s "scene_id" with _ | sid <;> rw [h1] at h
    · simp at h
    · rcases h2 : dget s "title" with _ | title <;> rw [h2] at h
      · simp at h
      · rcases h3 : dget s "main_point" with _ | mp <;> rw [h3] at h
        · simp at h
        · rcases h4 : dget s "scene_summary" with _ | ss <;> rw [h4] at h
          · simp at h
          · rcases h5 : dget s "scene_prompt" with _ | sp <;> rw [h5] at h
            · simp at h
            · simp only [Except.ok.injEq] at h
              subst h
              simp [hke]
  · intro data items sb hds h
    simp only [parse_storyboard] at h
    split at h
    · simp at h
    · next items2 heq =>
      rw [hds] at heq
      simp only [Option.some.injEq] at heq
      injection heq with heq
      subst heq
      split at h
      · simp at h
      · next scenes2 hml =>
        simp only [Except.ok.injEq] at h
        subst h
        obtain ⟨hlen, hget⟩ := mapExcept_ok_get hml
        exact ⟨hlen, hget⟩
    · simp at h
  · intro data items hds hdicts hbad
    obtain ⟨k, hk, hml⟩ := mapExcept_parseScene_err hdicts hbad
    refine ⟨k, hk, ?_⟩
    simp only [parse_storyboard]
    rw [hds]
    simp [hml]

/-- Witness for C9: the concrete dataW parses with the defaulted
style_preset and key_elements, entry count is preserved, and the entry
missing its title makes parsing fail. -/
theorem parse_storyboard_contract_witness :
    sbW.style_preset = .vstr ""
    ∧ scW.key_elements = .vlist []
    ∧ sbW.scenes.length = [Val.vdict sceneDictW].length
    ∧ (parse_storyboard dataBad).isOk = false := by
  refine ⟨?_, ?_, ?_, ?_⟩
  · exact parse_storyboard_contract.1 dataW sbW rfl rfl
  · exact parse_storyboard_contract.2.1 sceneDictW scW rfl rfl
  · exact (parse_storyboard_contract.2.2.1 dataW [Val.vdict sceneDictW] sbW rfl rfl).1
  · obtain ⟨k, hk, herr⟩ :=
      parse_storyboard_contract.2.2.2 dataBad [Val.vdict [("scene_id", Val.vint 1)]] rfl
        (by
          intro v hv
          simp only [List.mem_singleton] at hv
          exact ⟨_, hv⟩)
        ⟨Val.vdict [("scene_id", Val.vint 1)], by simp,
         [("scene_id", Val.vint 1)], rfl, "title", by simp [requiredSceneKeys], rfl⟩
    rw [herr]
    rfl

end PengVid
